import Mathlib

/-!
Shallow embedding of the AVR reciprocal frequency counter (src/main.c)
and proofs about its measurement engine: the frequency calculator, the
display band selection, the tick clock, and the two-counter mode-switching
state machine.

Machine integers are modelled as `Nat` (or `Int` for the signed watchdog
counter) with explicit `% 2^w` reductions wherever the C arithmetic can
wrap: `tick_t` is `unsigned long` (32 bits), the 64-bit path uses
`unsigned long long`, `uint8_t` values reduce mod 2^8, `OCR1A` is a
16-bit register.
-/

/-! Constants. -/

/-- Clock frequency of the target. `F_CPU` is a build-time constant; the
comments in src/main.c (init_time_keeping, display_measurement) fix the
reference configuration at a 20 MHz clock, which this embedding follows. -/
def F_CPU : Nat := 20000000

/-- Tick-frequency constant `10*F_CPU/64`: ten times the tick rate (one
tick is 64 cpu cycles), i.e. the dHz value of a 1-tick-period signal. -/
def K : Nat := 10 * F_CPU / 64

/-- Sentinel period value `0xffffffffUL` meaning "no valid measurement yet"
(src/main.c line 43). -/
def MAX_PERIOD : Nat := 0xffffffff

/-- Watchdog ceiling `WD_TOP` (src/main.c line 96); `fast_wd` is a
`signed char`, modelled as `Int`. -/
def WD_TOP : Int := 4

/-- Low-target threshold `MIN_PERIOD` of the adaptation algorithm
(src/main.c line 375); the high-target threshold is `MIN_PERIOD*3`. -/
def MIN_PERIOD : Nat := 10000

/-! Frequency calculator and display decision. -/

/-- Frequency computation of `display_measurement` (src/main.c lines
502-519) for `ticks > 0`.  For `n < 11` the whole computation is done in
32-bit `unsigned long` arithmetic:
`f = (((10UL*F_CPU/64) << n) + ticks/2) / ticks`.  For `n >= 11` the
numerator is built in 64-bit `unsigned long long` arithmetic and the
quotient is assigned back to the 32-bit `unsigned long f`, hence the final
`% 2^32`. -/
def freq_calc (n ticks : Nat) : Nat :=
  if n < 11 then
    ((K <<< n) % 2^32 + ticks / 2) % 2^32 / ticks
  else
    ((K <<< n) % 2^64 + ticks / 2) / ticks % 2^32

/-- Specification-side frequency value, following the spec text: round
half-up of `K << n / ticks`, "implemented by adding ticks/2 before integer
division", computed in arbitrary-precision integer arithmetic. -/
def spec_freq (n ticks : Nat) : Nat :=
  (K * 2^n + ticks / 2) / ticks

/-- Outcome of one display update: either the fixed placeholder line "---"
or a line showing the digits of a frequency value (in dHz). -/
inductive Rendered where
  | placeholder : Rendered
  | digits : Nat → Rendered
deriving DecidableEq, Repr

/-- Content decision of `display_freq` (src/main.c lines 566-635): a zero
frequency renders the placeholder line, anything else renders its digits.
The `prev_freq`/`show_line` duplicate-suppression only elides re-emission
of an identical line and is not part of the rendered content. -/
def display_freq_render (freq : Nat) : Rendered :=
  if freq = 0 then .placeholder else .digits freq

/-- Content decision of `display_measurement` (src/main.c lines 472-522):
`ticks == 0` renders the placeholder line directly (the division is never
reached); otherwise the frequency is computed and handed to
`display_freq`. -/
def display_measurement (n ticks : Nat) : Rendered :=
  if ticks = 0 then .placeholder
  else display_freq_render (freq_calc n ticks)

/-! Band selection of the display formatter: the `range[]` table and the
up/down scan of `display_freq` (src/main.c lines 548-563 and 587-592). -/

/-- Entry of the `range[]` table: min/max bounds in dHz, decimal-point and
least-significant-digit columns, divisor, and unit-prefix character. -/
structure Band where
  min : Nat
  max : Nat
  point : Int
  lsd : Int
  divisor : Nat
  prefixChar : Char

/-- Number of entries of the `range[]` table. -/
def NUM_RANGES : Nat := 5

/-- The `range[]` table (src/main.c lines 555-562). Indices outside the
table have no C counterpart (reading them is out-of-bounds); the scans
below guard every access with an explicit bounds check, so the junk value
of the final catch-all arm is never consulted under that guard. -/
def range : Nat → Band
  | 0 => ⟨0, 9999, 4, 5, 1, ' '⟩
  | 1 => ⟨9900, 99999, 1, 4, 10, 'k'⟩
  | 2 => ⟨99000, 999999, 2, 4, 100, 'k'⟩
  | 3 => ⟨990000, 9999999, 3, 4, 1000, 'k'⟩
  | 4 => ⟨9900000, 99999999, 1, 4, 10000, 'M'⟩
  | _ => ⟨0, 0, 0, 0, 1, ' '⟩

/-- Upward phase of the scan, `while (freq > range[curr_range].max)
curr_range++;` (src/main.c line 587). `none` models the scan stepping out
of the table (an out-of-bounds `range[curr_range]` access in C). -/
def upScan (freq i : Nat) : Option Nat :=
  if h : i < NUM_RANGES then
    if freq > (range i).max then upScan freq (i+1) else some i
  else none
termination_by NUM_RANGES - i
decreasing_by simp [NUM_RANGES] at *; omega

/-- Downward phase of the scan, `while (freq < range[curr_range].min)
curr_range--;` (src/main.c line 590). `curr_range` is unsigned, so
decrementing past index 0 would wrap to a huge out-of-bounds index,
modelled as `none`. -/
def downScan (freq i : Nat) : Option Nat :=
  if freq < (range i).min then
    if h : i = 0 then none else downScan freq (i-1)
  else some i
termination_by i
decreasing_by omega

/-- Whole band-selection scan of `display_freq`: upward phase followed by
downward phase. -/
def select_band (freq i : Nat) : Option Nat :=
  (upScan freq i).bind (downScan freq)

/-! Tick clock (src/main.c lines 200-222): a narrow hardware counter
`TCNT0` plus the wide software overflow counter `timer0_overflow_count`,
with the overflow-pending flag `TOV0` used to resolve the read race. -/

/-- State of the tick clock: the 32-bit software overflow counter, the
8-bit hardware counter `TCNT0`, and the hardware overflow-pending flag
`TIFR0 & _BV(TOV0)`. -/
structure Tick0State where
  timer0_overflow_count : Nat
  tcnt0 : Nat
  tov0 : Bool
deriving DecidableEq, Repr

/-- Overflow interrupt handler `ISR(TIM0_OVF_vect)` (src/main.c lines
202-205): increments the software overflow counter (32-bit wrap) and
touches nothing else. -/
def tim0_ovf (s : Tick0State) : Tick0State :=
  { s with timer0_overflow_count := (s.timer0_overflow_count + 1) % 2^32 }

/-- The function `cli_ticks` (src/main.c lines 211-222): reads the
overflow count `m` and the hardware count `t`, then, if the overflow flag
is pending and `t` has not wrapped to 255 yet, counts the overflow as
having already happened; returns `(m << 8) | t` in 32-bit `unsigned long`
arithmetic.  It only reads the state and returns a value. -/
def cli_ticks (s : Tick0State) : Nat :=
  let m := s.timer0_overflow_count
  let t := s.tcnt0
  let m' := if s.tov0 ∧ t < 255 then (m + 1) % 2^32 else m
  ((m' <<< 8) % 2^32) ||| t

/-! The two-counter measurement engine: counter records, interrupt
handlers, mode switching and the polling-loop watchdog (src/main.c lines
72-142 and 292-463). -/

/-- The `struct counter` of src/main.c lines 72-90: last measured period,
the exponent that produced it, the awaiting-first-edge flag, the exponent
for the current counting window, and the window-start tick. -/
structure Counter where
  period : Nat
  log2num_events : Nat
  first_time : Bool
  current_log2num_events : Nat
  prev_ticks : Nat
deriving DecidableEq, Repr

/-- Global state of the measurement engine: the two counter records, the
active-counter pointer (`current == &fast_cnt`), the edge-interrupt mask
bit (`GIMSK = _BV(INT0)` vs `0`), the watchdog countdown, the extended
event counter and its limit (`counter_high`/`cmp_high`), and the timer-1
compare and count registers. -/
structure Sys where
  slow_cnt : Counter
  fast_cnt : Counter
  currentIsFast : Bool
  gimsk_int0 : Bool
  fast_wd : Int
  counter_high : Nat
  cmp_high : Nat
  ocr1a : Nat
  tcnt1 : Nat
deriving DecidableEq, Repr

/-- The 32-bit wraparound subtraction on `tick_t` values below `2^32`. -/
def tick_sub (a b : Nat) : Nat := (a + 2^32 - b) % 2^32

/-- The function `set_timer_cmp_reg` (src/main.c lines 353-370): for
exponents up to the hardware width 16, program `OCR1A = (1 << log2ne) - 1`
and disable the extended counter; above it, program `OCR1A = 0xffff` and
set the 8-bit extended-counter limit `cmp_high = (1 << (log2ne-16)) - 1`,
resetting the extended counter. -/
def set_timer_cmp_reg (log2ne : Nat) (s : Sys) : Sys :=
  if log2ne ≤ 16 then
    { s with ocr1a := (2^log2ne - 1) % 2^16, cmp_high := 0 }
  else
    { s with ocr1a := 0xffff, cmp_high := (2^(log2ne - 16) - 1) % 2^8,
             counter_high := 0 }

/-- The slow-mode edge interrupt handler `ISR(EXT_INT0_vect)` (src/main.c
lines 292-330), applied to the tick value `cs` read by `cli_ticks`: on the
first edge only record the window start; otherwise compute the period, and
if it is below 100 ticks perform the emergency escalation to fast mode
(reinitialize `fast_cnt`, program `OCR1A` for exponent 1, clear `TCNT1`,
mask the edge interrupt, make Fast active). -/
def slow_isr (cs : Nat) (s : Sys) : Sys :=
  if s.slow_cnt.first_time then
    { s with slow_cnt := { s.slow_cnt with first_time := false, prev_ticks := cs } }
  else
    let period := tick_sub cs s.slow_cnt.prev_ticks
    let s1 := { s with slow_cnt :=
      { s.slow_cnt with period := period, prev_ticks := cs } }
    if period < 100 then
      let fc := { s1.fast_cnt with
        period := MAX_PERIOD
        first_time := true
        current_log2num_events := 1
        prev_ticks := cs }
      { s1 with
        gimsk_int0 := false
        fast_cnt := fc
        ocr1a := 2^1 - 1
        tcnt1 := 0
        currentIsFast := true }
    else s1

/-- The function `slow_mode` (src/main.c lines 336-348): force-switch to
slow mode; reset the slow counter to a fresh awaiting-first-edge state with
sentinel period, reset the fast exponent to 1 and reprogram its compare
limit, clear `TCNT1`, unmask the edge interrupt, make Slow active. -/
def slow_mode_fn (s : Sys) : Sys :=
  let sc := { s.slow_cnt with first_time := true, period := MAX_PERIOD }
  let fc := { s.fast_cnt with first_time := true, current_log2num_events := 1 }
  let s1 := { s with
    gimsk_int0 := true
    slow_cnt := sc
    currentIsFast := false
    fast_cnt := fc }
  let s2 := set_timer_cmp_reg s1.fast_cnt.current_log2num_events s1
  { s2 with tcnt1 := 0 }

/-- The upward adaptation loop of `ISR(TIM1_COMPA_vect)` (src/main.c lines
421-424): `do { log2ne++; period *= 2; } while (period < MIN_PERIOD &&
log2ne < 20);` on the local variables, `period` in 32-bit `tick_t`
arithmetic. -/
def adapt_up (p e : Nat) : Nat × Nat :=
  let p' := p * 2 % 2^32
  let e' := e + 1
  if h : p' < MIN_PERIOD ∧ e' < 20 then adapt_up p' e' else (p', e')
termination_by 20 - e
decreasing_by omega

/-- The downward adaptation loop of `ISR(TIM1_COMPA_vect)` (src/main.c
lines 433-436): `do { log2ne--; period /= 2; } while (period >
MIN_PERIOD*3 && log2ne > 1);` on the local variables. -/
def adapt_down (p e : Nat) : Nat × Nat :=
  let p' := p / 2
  let e' := e - 1
  if h : p' > MIN_PERIOD * 3 ∧ e' > 1 then adapt_down p' e' else (p', e')
termination_by e
decreasing_by omega

/-- The fast-mode compare-match handler `ISR(TIM1_COMPA_vect)` (src/main.c
lines 380-463), applied to the tick value read by `cli_ticks`: reset the
watchdog; handle the extended event counter (non-firing invocations return
after incrementing it); on the first firing only record the window start;
otherwise publish the measurement, run the adaptation loops (the upward
one also promotes Fast to active and masks the edge interrupt), and run
the mode-transition checks. -/
def fast_isr (ticks : Nat) (s0 : Sys) : Sys :=
  let s := { s0 with fast_wd := WD_TOP }
  if s.counter_high ≠ s.cmp_high then
    { s with counter_high := (s.counter_high + 1) % 2^8 }
  else
    let s := { s with counter_high := 0 }
    if s.fast_cnt.first_time then
      { s with fast_cnt := { s.fast_cnt with
          first_time := false
          prev_ticks := ticks } }
    else
      let log2ne := s.fast_cnt.current_log2num_events
      let period := tick_sub ticks s.fast_cnt.prev_ticks
      let fc := { s.fast_cnt with
        log2num_events := log2ne
        period := period
        prev_ticks := ticks }
      let s := { s with fast_cnt := fc }
      let pl :=
        if period < MIN_PERIOD ∧ log2ne < 20 then adapt_up period log2ne
        else if period > MIN_PERIOD * 3 ∧ log2ne > 1 then
          adapt_down period log2ne
        else (period, log2ne)
      let s2 :=
        if period < MIN_PERIOD ∧ log2ne < 20 then
          let t := set_timer_cmp_reg pl.2 s
          { t with
            gimsk_int0 := false
            currentIsFast := true
            fast_cnt := { t.fast_cnt with current_log2num_events := pl.2 } }
        else if period > MIN_PERIOD * 3 ∧ log2ne > 1 then
          let t := set_timer_cmp_reg pl.2 s
          { t with
            fast_cnt := { t.fast_cnt with current_log2num_events := pl.2 } }
        else s
      if s2.currentIsFast then
        if pl.1 > MIN_PERIOD * 3 ∧ pl.2 = 1 then
          let sc := { s2.slow_cnt with
            period := pl.1 / 2
            prev_ticks := ticks
            first_time := true }
          { s2 with
            gimsk_int0 := true
            slow_cnt := sc
            currentIsFast := false }
        else s2
      else if s2.slow_cnt.period < MIN_PERIOD then
        { s2 with gimsk_int0 := false, currentIsFast := true }
      else s2

/-- The watchdog check of the polling loop (src/main.c lines 129-136):
`if (fast_wd-- < 0 && current == &fast_cnt) { fast_wd = WD_TOP;
slow_mode(); }`.  The countdown is decremented unconditionally (the
decrement is part of the first operand of `&&`); the returned flag records
whether the forced switch fired on this iteration. -/
def poll_wd (s : Sys) : Sys × Bool :=
  let s1 := { s with fast_wd := s.fast_wd - 1 }
  if s.fast_wd < 0 ∧ s.currentIsFast then
    (slow_mode_fn { s1 with fast_wd := WD_TOP }, true)
  else (s1, false)

/-- Number of forced-switch triggers in `n` consecutive polling iterations
starting from state `s` with no intervening interrupts. -/
def countTriggers : Nat → Sys → Nat
  | 0, _ => 0
  | n+1, s => (if (poll_wd s).2 then 1 else 0) + countTriggers n (poll_wd s).1

/-- State at the start of the C3 scenario: Fast is the active counter and
the watchdog has just been reset to its ceiling by the last compare-match
interrupt ever to occur. -/
def c3_state : Sys :=
  { slow_cnt := ⟨MAX_PERIOD, 0, true, 0, 0⟩,
    fast_cnt := ⟨MAX_PERIOD, 0, false, 1, 0⟩,
    currentIsFast := true, gimsk_int0 := false, fast_wd := WD_TOP,
    counter_high := 0, cmp_high := 0, ocr1a := 1, tcnt1 := 0 }

/-- Concrete state used to witness the C4 escalation theorem: Slow is
active and has already seen its first edge at tick 0. -/
def c4_state : Sys :=
  { slow_cnt := ⟨MAX_PERIOD, 0, false, 0, 0⟩,
    fast_cnt := ⟨MAX_PERIOD, 0, true, 1, 0⟩,
    currentIsFast := false, gimsk_int0 := true, fast_wd := WD_TOP,
    counter_high := 0, cmp_high := 0, ocr1a := 1, tcnt1 := 0 }

/-- Concrete fast-counter state used to witness the C5 adaptation theorem:
one window has completed (`first_time = 0`), window start at tick 0,
current exponent 1, extended counter disabled. -/
def c5_state : Sys :=
  { slow_cnt := ⟨MAX_PERIOD, 0, true, 0, 0⟩,
    fast_cnt := ⟨MAX_PERIOD, 0, false, 1, 0⟩,
    currentIsFast := false, gimsk_int0 := true, fast_wd := WD_TOP,
    counter_high := 0, cmp_high := 0, ocr1a := 1, tcnt1 := 0 }

/-- Startup state: the static initializers of `slow_cnt`, `fast_cnt`,
`fast_wd`, `counter_high` (src/main.c lines 92-97, 200, 350) followed by
`init_event_counting` (lines 251-287), which programs the compare limit
for the fast counter's initial exponent 1, clears `TCNT1`, enables the
edge interrupt and makes Slow active. -/
def init_state : Sys :=
  let s0 : Sys := {
    slow_cnt := ⟨MAX_PERIOD, 0, true, 0, 0⟩
    fast_cnt := ⟨MAX_PERIOD, 0, true, 1, 0⟩
    currentIsFast := false
    gimsk_int0 := true
    fast_wd := WD_TOP
    counter_high := 0
    cmp_high := 0
    ocr1a := 0
    tcnt1 := 0 }
  { set_timer_cmp_reg s0.fast_cnt.current_log2num_events s0 with tcnt1 := 0 }

/-- States reachable from startup under the system's operations: the
slow-mode edge interrupt, the fast-mode compare-match interrupt, and one
polling-loop watchdog check (which embeds the forced `slow_mode()`
transition). -/
inductive Reachable : Sys → Prop
  | init : Reachable init_state
  | slow_edge (s : Sys) (cs : Nat) : Reachable s → Reachable (slow_isr cs s)
  | fast_compare (s : Sys) (t : Nat) : Reachable s → Reachable (fast_isr t s)
  | poll (s : Sys) : Reachable s → Reachable (poll_wd s).1

/-! Theorems.  Helper lemmas first, then one theorem per claim (with its
counterexample and witness where applicable). -/

theorem K_eq : K = 3125000 := by decide

/-! Helper lemmas for the band-selection scan. -/

theorem upScan_some (freq i j : Nat) :
    upScan freq i = some j → j < NUM_RANGES ∧ freq ≤ (range j).max ∧ i ≤ j := by
  refine upScan.induct freq
    (fun i => upScan freq i = some j →
      j < NUM_RANGES ∧ freq ≤ (range j).max ∧ i ≤ j) ?_ ?_ ?_ i
  · intro x hx hgt ih h
    rw [upScan.eq_def, dif_pos hx, if_pos hgt] at h
    have := ih h
    omega
  · intro x hx hgt h
    rw [upScan.eq_def, dif_pos hx, if_neg hgt] at h
    cases h
    exact ⟨hx, by omega, le_refl _⟩
  · intro x hx h
    rw [upScan.eq_def, dif_neg hx] at h
    cases h

theorem upScan_total (freq : Nat) (hle : freq ≤ (range 4).max) (i : Nat) :
    i < NUM_RANGES → ∃ j, upScan freq i = some j := by
  refine upScan.induct freq
    (fun i => i < NUM_RANGES → ∃ j, upScan freq i = some j) ?_ ?_ ?_ i
  · intro x hx hgt ih _
    have hx4 : x ≠ 4 := by
      intro e
      subst e
      simp only [range] at hgt
      simp only [range] at hle
      omega
    rw [upScan.eq_def, dif_pos hx, if_pos hgt]
    exact ih (by simp only [NUM_RANGES] at hx ⊢; omega)
  · intro x hx hgt _
    exact ⟨x, by rw [upScan.eq_def, dif_pos hx, if_neg hgt]⟩
  · intro x hx h
    exact absurd h hx

theorem downScan_some (freq i j : Nat) (h : downScan freq i = some j) :
    (range j).min ≤ freq ∧ j ≤ i := by
  induction i using Nat.strong_induction_on with
  | _ i ih =>
    rw [downScan.eq_def] at h
    split at h
    · split at h
      · exact absurd h (by simp)
      · rename_i h1 h2
        have := ih (i-1) (by omega) h
        omega
    · rename_i h1
      cases h
      exact ⟨by omega, le_refl _⟩

theorem downScan_total (freq i : Nat) :
    ∃ j, downScan freq i = some j ∧ j ≤ i := by
  induction i using Nat.strong_induction_on with
  | _ i ih =>
    rw [downScan.eq_def]
    split
    · rename_i h1
      have hi0 : i ≠ 0 := by
        intro e
        subst e
        simp only [range] at h1
        omega
      rw [dif_neg hi0]
      obtain ⟨j, hj, hle⟩ := ih (i-1) (by omega)
      exact ⟨j, hj, by omega⟩
    · exact ⟨i, rfl, le_refl _⟩

theorem downScan_max (freq i j : Nat) (hi : i < NUM_RANGES)
    (hmax : freq ≤ (range i).max) (h : downScan freq i = some j) :
    freq ≤ (range j).max := by
  revert hi hmax h
  induction i using Nat.strong_induction_on with
  | _ i ih =>
    intro hi hmax h
    rw [downScan.eq_def] at h
    split at h
    · rename_i h1
      have hi0 : i ≠ 0 := by
        intro e
        subst e
        simp only [range] at h1
        omega
      rw [dif_neg hi0] at h
      have hov : (range i).min ≤ (range (i-1)).max + 1 := by
        have hall : ∀ k, k < NUM_RANGES → 1 ≤ k →
            (range k).min ≤ (range (k-1)).max + 1 := by decide
        exact hall i hi (by omega)
      exact ih (i-1) (by omega) (by simp only [NUM_RANGES] at hi ⊢; omega)
        (by omega) h
    · cases h
      exact hmax

/-! Helper lemmas for the adaptation loops. -/

theorem adapt_up_step (p e : Nat) (h : p * 2 % 2^32 < MIN_PERIOD ∧ e + 1 < 20) :
    adapt_up p e = adapt_up (p * 2 % 2^32) (e + 1) := by
  rw [adapt_up.eq_def]
  simp only [dif_pos h]

theorem adapt_up_base (p e : Nat)
    (h : ¬(p * 2 % 2^32 < MIN_PERIOD ∧ e + 1 < 20)) :
    adapt_up p e = (p * 2 % 2^32, e + 1) := by
  rw [adapt_up.eq_def]
  simp only [dif_neg h]

theorem adapt_up_spec (p e : Nat) :
    p < MIN_PERIOD → e < 20 →
    e < (adapt_up p e).2 ∧ (adapt_up p e).2 ≤ 20 ∧
    (adapt_up p e).1 = p * 2^((adapt_up p e).2 - e) ∧
    (adapt_up p e).1 < 2 * MIN_PERIOD ∧
    (MIN_PERIOD ≤ (adapt_up p e).1 ∨ (adapt_up p e).2 = 20) ∧
    (∀ k, e < k → k < (adapt_up p e).2 → p * 2^(k - e) < MIN_PERIOD) := by
  refine adapt_up.induct (fun p e => p < MIN_PERIOD → e < 20 →
    e < (adapt_up p e).2 ∧ (adapt_up p e).2 ≤ 20 ∧
    (adapt_up p e).1 = p * 2^((adapt_up p e).2 - e) ∧
    (adapt_up p e).1 < 2 * MIN_PERIOD ∧
    (MIN_PERIOD ≤ (adapt_up p e).1 ∨ (adapt_up p e).2 = 20) ∧
    (∀ k, e < k → k < (adapt_up p e).2 → p * 2^(k - e) < MIN_PERIOD)) ?_ ?_ p e
  · intro p e p' e' h ih hp he
    have ep : p' = p * 2 % 2^32 := rfl
    have ee : e' = e + 1 := rfl
    rw [ep, ee] at h ih
    have h2 : (10000:Nat) * 2 < 2^32 := by norm_num
    have hmp : MIN_PERIOD = 10000 := rfl
    have hmod : p * 2 % 2^32 = p * 2 := Nat.mod_eq_of_lt (by omega)
    rw [hmod] at h ih
    rw [adapt_up_step p e (by rw [hmod]; exact h)]
    obtain ⟨hr1, hr2, hr3, hr4, hr5, hr6⟩ := ih h.1 h.2
    rw [hmod]
    set r := adapt_up (p * 2) (e + 1) with hr
    refine ⟨by omega, hr2, ?_, hr4, hr5, ?_⟩
    · rw [hr3]
      have hre : r.2 - e = (r.2 - (e + 1)) + 1 := by omega
      rw [hre, pow_succ]
      ring
    · intro k hk1 hk2
      rcases Nat.eq_or_lt_of_le hk1 with hke | hke
      · have hk : k - e = 1 := by omega
        rw [hk]
        have := h.1
        omega
      · have hlt := hr6 k (by omega) hk2
        have hke' : k - e = (k - (e + 1)) + 1 := by omega
        rw [hke', pow_succ]
        calc p * (2^(k - (e+1)) * 2) = p * 2 * 2^(k - (e+1)) := by ring
          _ < MIN_PERIOD := hlt
  · intro p e p' e' h hp he
    have ep : p' = p * 2 % 2^32 := rfl
    have ee : e' = e + 1 := rfl
    rw [ep, ee] at h
    have h2 : (10000:Nat) * 2 < 2^32 := by norm_num
    have hmp : MIN_PERIOD = 10000 := rfl
    have hmod : p * 2 % 2^32 = p * 2 := Nat.mod_eq_of_lt (by omega)
    rw [adapt_up_base p e h, hmod]
    rw [hmod] at h
    simp only []
    refine ⟨by omega, by omega, ?_, by omega, ?_, ?_⟩
    · have he1 : e + 1 - e = 1 := by omega
      rw [he1]
      ring
    · omega
    · intro k hk1 hk2
      omega

theorem adapt_down_step (p e : Nat)
    (h : p / 2 > MIN_PERIOD * 3 ∧ e - 1 > 1) :
    adapt_down p e = adapt_down (p / 2) (e - 1) := by
  rw [adapt_down.eq_def]
  simp only [dif_pos h]

theorem adapt_down_base (p e : Nat)
    (h : ¬(p / 2 > MIN_PERIOD * 3 ∧ e - 1 > 1)) :
    adapt_down p e = (p / 2, e - 1) := by
  rw [adapt_down.eq_def]
  simp only [dif_neg h]

theorem adapt_down_bounds (p e : Nat) :
    1 < e → 1 ≤ (adapt_down p e).2 ∧ (adapt_down p e).2 < e := by
  refine adapt_down.induct (fun p e => 1 < e →
    1 ≤ (adapt_down p e).2 ∧ (adapt_down p e).2 < e) ?_ ?_ p e
  · intro p e p' e' h ih he
    have ep : p' = p / 2 := rfl
    have ee : e' = e - 1 := rfl
    rw [ep, ee] at h ih
    rw [adapt_down_step p e h]
    have := ih h.2
    omega
  · intro p e p' e' h he
    have ep : p' = p / 2 := rfl
    have ee : e' = e - 1 := rfl
    rw [ep, ee] at h
    rw [adapt_down_base p e h]
    simp only []
    omega

/-! Projection lemmas for `set_timer_cmp_reg`. -/

theorem set_timer_fast_cnt (e : Nat) (s : Sys) :
    (set_timer_cmp_reg e s).fast_cnt = s.fast_cnt := by
  unfold set_timer_cmp_reg
  split <;> rfl

theorem set_timer_slow_cnt (e : Nat) (s : Sys) :
    (set_timer_cmp_reg e s).slow_cnt = s.slow_cnt := by
  unfold set_timer_cmp_reg
  split <;> rfl

theorem set_timer_currentIsFast (e : Nat) (s : Sys) :
    (set_timer_cmp_reg e s).currentIsFast = s.currentIsFast := by
  unfold set_timer_cmp_reg
  split <;> rfl

theorem set_timer_gimsk (e : Nat) (s : Sys) :
    (set_timer_cmp_reg e s).gimsk_int0 = s.gimsk_int0 := by
  unfold set_timer_cmp_reg
  split <;> rfl

theorem set_timer_fast_wd (e : Nat) (s : Sys) :
    (set_timer_cmp_reg e s).fast_wd = s.fast_wd := by
  unfold set_timer_cmp_reg
  split <;> rfl

theorem set_timer_ocr1a (e : Nat) (s : Sys) :
    (set_timer_cmp_reg e s).ocr1a =
      if e ≤ 16 then (2^e - 1) % 2^16 else 0xffff := by
  unfold set_timer_cmp_reg
  split <;> simp_all

theorem set_timer_cmp_high (e : Nat) (s : Sys) :
    (set_timer_cmp_reg e s).cmp_high =
      if e ≤ 16 then 0 else (2^(e - 16) - 1) % 2^8 := by
  unfold set_timer_cmp_reg
  split <;> simp_all

/-! C1: exactness of the frequency calculator. -/

/-- C1 (counterexample): at exponent `n = 11` and `ticks = 1` the code's
64-bit quotient `K << 11 = 6400000000` is truncated when assigned to the
32-bit result variable `f`, so the returned value `2105032704` differs
from the arbitrary-precision round-half-up value. The claim's exactness
for every `ticks` up to `0xffffffff` also fails in the 32-bit path, e.g.
at `n = 10`, `ticks = 0xffffffff`, where `(K << 10) + ticks/2` wraps past
`2^32` and the code returns 0 instead of 1. -/
theorem freq_calc_truncates_at_11_1 : freq_calc 11 1 ≠ spec_freq 11 1 := by
  decide

/-- C1 (amended): for every `ticks > 0` and exponent `n ≤ 20`,
`display_measurement`'s frequency computation returns exactly the
arbitrary-precision round-half-up value `(K*2^n + ticks/2) / ticks`,
provided the computation does not overflow its integer width: for `n < 11`
the 32-bit numerator `K*2^n + ticks/2` must be below `2^32`, and for
`n ≥ 11` the exact quotient must fit the 32-bit result variable. In
particular exactness holds at and around the width-switch boundary
`n = 11` whenever these bounds hold. -/
theorem freq_calc_exact (n ticks : Nat) (hn : n ≤ 20) (ht : 0 < ticks)
    (hlow : n < 11 → K * 2^n + ticks / 2 < 2^32)
    (hhigh : 11 ≤ n → (K * 2^n + ticks / 2) / ticks < 2^32) :
    freq_calc n ticks = spec_freq n ticks := by
  unfold freq_calc spec_freq
  rw [Nat.shiftLeft_eq]
  split
  · rename_i h
    have h1 : K * 2^n + ticks / 2 < 2^32 := hlow h
    have h2 : K * 2^n < 2^32 := lt_of_le_of_lt (Nat.le_add_right _ _) h1
    rw [Nat.mod_eq_of_lt h2, Nat.mod_eq_of_lt h1]
  · rename_i h
    have h64 : K * 2^n < 2^64 := by
      have : K * 2^n ≤ K * 2^20 :=
        Nat.mul_le_mul_left K (Nat.pow_le_pow_right (by decide) hn)
      calc K * 2^n ≤ K * 2^20 := this
        _ < 2^64 := by decide
    rw [Nat.mod_eq_of_lt h64, Nat.mod_eq_of_lt (hhigh (Nat.le_of_not_lt h))]

/-- C1 (witness): the amended exactness theorem applied at the
width-switch boundary `n = 11` with `ticks = 2`. -/
theorem freq_calc_exact_witness : freq_calc 11 2 = spec_freq 11 2 :=
  freq_calc_exact 11 2 (by decide) (by decide) (by decide) (by decide)

/-! C2: undefined measurements render the placeholder line. -/

/-- C2 (counterexample): a snapshot with the sentinel period
`MAX_PERIOD = 0xffffffff` (no edges observed yet) and exponent `n = 11`
does not render the placeholder line: the computed frequency is `1` dHz,
so a digit line is rendered instead. (Such a snapshot arises when the
slow-mode handler's emergency escalation resets `fast_cnt.period` to the
sentinel while `fast_cnt.log2num_events` still holds a stale value from an
earlier fast-mode episode.) -/
theorem display_sentinel_not_placeholder_at_11 :
    display_measurement 11 MAX_PERIOD ≠ Rendered.placeholder := by
  decide

/-- C2 (amended): for every exponent `n ≤ 20`, a snapshot with `ticks = 0`
renders the fixed placeholder line (the zero test short-circuits before
any division, so no division by zero is performed and the function is
total); and a snapshot holding the sentinel period `MAX_PERIOD` renders
the placeholder line whenever `n ≤ 10` (the computed frequency is then 0).
For `11 ≤ n` the sentinel snapshot instead renders a digit line. -/
theorem display_measurement_undefined (n : Nat) (hn : n ≤ 20) :
    display_measurement n 0 = Rendered.placeholder ∧
    (n ≤ 10 → display_measurement n MAX_PERIOD = Rendered.placeholder) := by
  constructor
  · simp [display_measurement]
  · intro h10
    interval_cases n <;> decide

/-- C2 (witness): the amended theorem applied at `n = 10`. -/
theorem display_measurement_undefined_witness :
    display_measurement 10 0 = Rendered.placeholder ∧
    (10 ≤ 10 → display_measurement 10 MAX_PERIOD = Rendered.placeholder) :=
  display_measurement_undefined 10 (by decide)

/-! C3: the polling-loop watchdog. -/

/-- C3 (counterexample): with the watchdog at its ceiling `WD_TOP = 4` and
Fast active, four consecutive polling iterations with no fast-mode
interrupt trigger the forced switch zero times, not exactly once: the
pre-decrement test `fast_wd-- < 0` first sees a negative value only on the
sixth iteration (countdown values read: 4, 3, 2, 1, 0, -1). -/
theorem watchdog_no_trigger_in_four : countTriggers 4 c3_state = 0 := by
  decide

/-- C3 (amended): with the ceiling fixed at `WD_TOP = 4`, if Fast is the
active counter, the countdown is at its ceiling, and no fast-mode
compare-match occurs, then six consecutive polling iterations trigger the
forced switch exactly once — on the sixth iteration, the one after the
decrement makes the countdown negative (four iterations trigger it zero
times); the countdown is decremented exactly once per non-triggering
polling iteration, and every fast-mode compare-match invocation (firing or
not) resets it to the ceiling. -/
theorem watchdog_behavior (s : Sys) (hwd : s.fast_wd = WD_TOP)
    (hfast : s.currentIsFast = true) :
    countTriggers 4 s = 0 ∧
    countTriggers 6 s = 1 ∧
    (∀ t : Sys, (poll_wd t).2 = false → (poll_wd t).1.fast_wd = t.fast_wd - 1) ∧
    (∀ (t : Sys) (x : Nat), (fast_isr x t).fast_wd = WD_TOP) := by
  refine ⟨?_, ?_, ?_, ?_⟩
  · simp [countTriggers, poll_wd, hwd, hfast, WD_TOP]
  · simp [countTriggers, poll_wd, hwd, hfast, WD_TOP]
  · intro t h
    by_cases hc : t.fast_wd < 0 ∧ t.currentIsFast = true
    · simp [poll_wd, hc] at h
    · simp [poll_wd, hc]
  · intro t x
    simp only [fast_isr]
    split_ifs <;> simp [set_timer_fast_wd]

/-- C3 (witness): the amended watchdog theorem applied at the concrete
scenario state `c3_state`. -/
theorem watchdog_behavior_witness :
    countTriggers 4 c3_state = 0 ∧ countTriggers 6 c3_state = 1 :=
  ⟨(watchdog_behavior c3_state rfl rfl).1,
   (watchdog_behavior c3_state rfl rfl).2.1⟩

/-! C4: emergency escalation in the slow-mode edge handler. -/

/-- C4: whenever the slow-mode edge handler computes a period strictly
below the 100-tick escalation threshold, then before returning it sets the
Fast counter's period to the sentinel maximum, its exponent to 1, marks it
awaiting-first-edge, seeds its window start from the current tick,
programs the hardware compare limit `OCR1A` for exponent 1, zeroes the
hardware counter `TCNT1`, disables the edge interrupt, and makes Fast the
active counter. -/
theorem slow_isr_escalates (cs : Nat) (s : Sys)
    (hft : s.slow_cnt.first_time = false)
    (hper : tick_sub cs s.slow_cnt.prev_ticks < 100) :
    (slow_isr cs s).fast_cnt.period = MAX_PERIOD ∧
    (slow_isr cs s).fast_cnt.current_log2num_events = 1 ∧
    (slow_isr cs s).fast_cnt.first_time = true ∧
    (slow_isr cs s).fast_cnt.prev_ticks = cs ∧
    (slow_isr cs s).ocr1a = 2^1 - 1 ∧
    (slow_isr cs s).tcnt1 = 0 ∧
    (slow_isr cs s).gimsk_int0 = false ∧
    (slow_isr cs s).currentIsFast = true := by
  simp [slow_isr, hft, hper]

/-- C4 (witness): the escalation theorem applied at a concrete state (an
edge at tick 50, i.e. a 50-tick period, while Slow is active). -/
theorem slow_isr_escalates_witness :
    (slow_isr 50 c4_state).fast_cnt.period = MAX_PERIOD ∧
    (slow_isr 50 c4_state).fast_cnt.current_log2num_events = 1 ∧
    (slow_isr 50 c4_state).fast_cnt.first_time = true ∧
    (slow_isr 50 c4_state).fast_cnt.prev_ticks = 50 ∧
    (slow_isr 50 c4_state).ocr1a = 2^1 - 1 ∧
    (slow_isr 50 c4_state).tcnt1 = 0 ∧
    (slow_isr 50 c4_state).gimsk_int0 = false ∧
    (slow_isr 50 c4_state).currentIsFast = true :=
  slow_isr_escalates 50 c4_state (by decide) (by decide)

/-! C5: the upward adaptation loop of the fast-mode handler. -/

/-- C5: in every firing fast-mode compare-match invocation whose
just-computed period is below `MIN_PERIOD` with exponent below 20, the
adaptation loop strictly increases the exponent, doubling the locally
tracked period once per step (so the final tracked period is the measured
period times `2^(final - initial exponent)`), and stops exactly when the
tracked period reaches the threshold or the exponent reaches 20 (every
strictly intermediate exponent still had a tracked period below the
threshold); the final exponent is stored as the pending exponent
`current_log2num_events`, and the hardware compare limit
(`OCR1A`/`cmp_high`) is reprogrammed for it as by `set_timer_cmp_reg`. -/
theorem fast_isr_adapts_up (ticks : Nat) (s : Sys)
    (hfire : s.counter_high = s.cmp_high)
    (hft : s.fast_cnt.first_time = false)
    (hper : tick_sub ticks s.fast_cnt.prev_ticks < MIN_PERIOD)
    (he : s.fast_cnt.current_log2num_events < 20) :
    s.fast_cnt.current_log2num_events <
      (adapt_up (tick_sub ticks s.fast_cnt.prev_ticks)
        s.fast_cnt.current_log2num_events).2 ∧
    (adapt_up (tick_sub ticks s.fast_cnt.prev_ticks)
        s.fast_cnt.current_log2num_events).2 ≤ 20 ∧
    (adapt_up (tick_sub ticks s.fast_cnt.prev_ticks)
        s.fast_cnt.current_log2num_events).1 =
      tick_sub ticks s.fast_cnt.prev_ticks *
        2^((adapt_up (tick_sub ticks s.fast_cnt.prev_ticks)
          s.fast_cnt.current_log2num_events).2 -
          s.fast_cnt.current_log2num_events) ∧
    (MIN_PERIOD ≤ (adapt_up (tick_sub ticks s.fast_cnt.prev_ticks)
        s.fast_cnt.current_log2num_events).1 ∨
      (adapt_up (tick_sub ticks s.fast_cnt.prev_ticks)
        s.fast_cnt.current_log2num_events).2 = 20) ∧
    (∀ k, s.fast_cnt.current_log2num_events < k →
      k < (adapt_up (tick_sub ticks s.fast_cnt.prev_ticks)
        s.fast_cnt.current_log2num_events).2 →
      tick_sub ticks s.fast_cnt.prev_ticks *
        2^(k - s.fast_cnt.current_log2num_events) < MIN_PERIOD) ∧
    (fast_isr ticks s).fast_cnt.current_log2num_events =
      (adapt_up (tick_sub ticks s.fast_cnt.prev_ticks)
        s.fast_cnt.current_log2num_events).2 ∧
    (fast_isr ticks s).ocr1a =
      (set_timer_cmp_reg (adapt_up (tick_sub ticks s.fast_cnt.prev_ticks)
        s.fast_cnt.current_log2num_events).2 s).ocr1a ∧
    (fast_isr ticks s).cmp_high =
      (set_timer_cmp_reg (adapt_up (tick_sub ticks s.fast_cnt.prev_ticks)
        s.fast_cnt.current_log2num_events).2 s).cmp_high := by
  obtain ⟨h1, h2, h3, h4, h5, h6⟩ :=
    adapt_up_spec (tick_sub ticks s.fast_cnt.prev_ticks)
      s.fast_cnt.current_log2num_events hper he
  have hno : ¬((adapt_up (tick_sub ticks s.fast_cnt.prev_ticks)
      s.fast_cnt.current_log2num_events).1 > MIN_PERIOD * 3 ∧
      (adapt_up (tick_sub ticks s.fast_cnt.prev_ticks)
        s.fast_cnt.current_log2num_events).2 = 1) := by
    have hmp : MIN_PERIOD = 10000 := rfl
    omega
  refine ⟨h1, h2, h3, h5, h6, ?_⟩
  simp [fast_isr, hfire, hft, hper, he, hno, set_timer_ocr1a,
    set_timer_cmp_high]

/-- C5 (witness): the adaptation theorem applied at `c5_state` with a
compare-match at tick 5000: the measured period 5000 is below the
threshold, so the loop runs from exponent 1 (to exponent 2, doubling the
tracked period to 10000). -/
theorem fast_isr_adapts_up_witness :
    c5_state.fast_cnt.current_log2num_events <
      (adapt_up (tick_sub 5000 c5_state.fast_cnt.prev_ticks)
        c5_state.fast_cnt.current_log2num_events).2 ∧
    (adapt_up (tick_sub 5000 c5_state.fast_cnt.prev_ticks)
        c5_state.fast_cnt.current_log2num_events).2 ≤ 20 ∧
    (adapt_up (tick_sub 5000 c5_state.fast_cnt.prev_ticks)
        c5_state.fast_cnt.current_log2num_events).1 =
      tick_sub 5000 c5_state.fast_cnt.prev_ticks *
        2^((adapt_up (tick_sub 5000 c5_state.fast_cnt.prev_ticks)
          c5_state.fast_cnt.current_log2num_events).2 -
          c5_state.fast_cnt.current_log2num_events) ∧
    (MIN_PERIOD ≤ (adapt_up (tick_sub 5000 c5_state.fast_cnt.prev_ticks)
        c5_state.fast_cnt.current_log2num_events).1 ∨
      (adapt_up (tick_sub 5000 c5_state.fast_cnt.prev_ticks)
        c5_state.fast_cnt.current_log2num_events).2 = 20) ∧
    (∀ k, c5_state.fast_cnt.current_log2num_events < k →
      k < (adapt_up (tick_sub 5000 c5_state.fast_cnt.prev_ticks)
        c5_state.fast_cnt.current_log2num_events).2 →
      tick_sub 5000 c5_state.fast_cnt.prev_ticks *
        2^(k - c5_state.fast_cnt.current_log2num_events) < MIN_PERIOD) ∧
    (fast_isr 5000 c5_state).fast_cnt.current_log2num_events =
      (adapt_up (tick_sub 5000 c5_state.fast_cnt.prev_ticks)
        c5_state.fast_cnt.current_log2num_events).2 ∧
    (fast_isr 5000 c5_state).ocr1a =
      (set_timer_cmp_reg (adapt_up (tick_sub 5000 c5_state.fast_cnt.prev_ticks)
        c5_state.fast_cnt.current_log2num_events).2 c5_state).ocr1a ∧
    (fast_isr 5000 c5_state).cmp_high =
      (set_timer_cmp_reg (adapt_up (tick_sub 5000 c5_state.fast_cnt.prev_ticks)
        c5_state.fast_cnt.current_log2num_events).2 c5_state).cmp_high :=
  fast_isr_adapts_up 5000 c5_state (by decide) (by decide) (by decide)
    (by decide)

/-! C6: the tick-clock read algorithm. -/

/-- C6: for every overflow-counter value `m`, hardware count `t` and
overflow-pending flag, `cli_ticks` returns `(m' * 256) | t` (in the 32-bit
arithmetic of `tick_t`) where `m' = m + 1` exactly when the pending flag
is set and `t` is below the about-to-wrap threshold (`t < 255`), and
`m' = m` otherwise; `cli_ticks` is a pure read (a function of the state
returning a value and no new state), and the overflow handler's only
effect is to increment the software overflow counter by one, leaving every
other field unchanged. -/
theorem cli_ticks_spec (s : Tick0State)
    (hm : s.timer0_overflow_count < 2^32) (ht : s.tcnt0 < 256) :
    cli_ticks s =
      (((if s.tov0 ∧ s.tcnt0 < 255 then s.timer0_overflow_count + 1
         else s.timer0_overflow_count) * 256) % 2^32) ||| s.tcnt0 ∧
    (tim0_ovf s).timer0_overflow_count =
      (s.timer0_overflow_count + 1) % 2^32 ∧
    (tim0_ovf s).tcnt0 = s.tcnt0 ∧ (tim0_ovf s).tov0 = s.tov0 := by
  refine ⟨?_, rfl, rfl, rfl⟩
  simp only [cli_ticks]
  by_cases h : s.tov0 = true ∧ s.tcnt0 < 255
  · rw [if_pos h, if_pos h, Nat.shiftLeft_eq]
    have e : (s.timer0_overflow_count + 1) % 2^32 * 2^8 % 2^32 =
        (s.timer0_overflow_count + 1) * 256 % 2^32 := by omega
    rw [e]
  · rw [if_neg h, if_neg h, Nat.shiftLeft_eq]

/-- C6 (witness): the theorem applied at a concrete race state: overflow
count 5, hardware count 3, overflow flag pending, where the returned value
counts the unserviced overflow: `(5+1)*256 | 3 = 1539`. -/
theorem cli_ticks_spec_witness :
    cli_ticks ⟨5, 3, true⟩ = ((6 * 256) % 2^32) ||| 3 ∧
    (tim0_ovf ⟨5, 3, true⟩).timer0_overflow_count = 6 % 2^32 ∧
    (tim0_ovf ⟨5, 3, true⟩).tcnt0 = 3 ∧ (tim0_ovf ⟨5, 3, true⟩).tov0 = true := by
  have h := cli_ticks_spec ⟨5, 3, true⟩ (by decide) (by decide)
  simpa using h

/-! C7: the band-selection scan stays inside the table. -/

/-- C7 (counterexample): the calculator can produce 32-bit frequency
values above the last band's max `99999999` (e.g.
`freq_calc 20 10000 = 327680000`), and for such a value the upward scan
leaves the 5-entry table: starting from band 0 with `freq = 100000000` dHz
the scan runs past index 4 and reads `range[5]`, an out-of-bounds access
(`none` in this embedding), so the last band's max does not act as a
sentinel for values above it. -/
theorem select_band_escapes_table : select_band 100000000 0 = none := by
  rw [select_band]
  rw [upScan.eq_def]; norm_num [NUM_RANGES, range]
  rw [upScan.eq_def]; norm_num [NUM_RANGES, range]
  rw [upScan.eq_def]; norm_num [NUM_RANGES, range]
  rw [upScan.eq_def]; norm_num [NUM_RANGES, range]
  rw [upScan.eq_def]; norm_num [NUM_RANGES, range]
  rw [upScan.eq_def, dif_neg (by norm_num [NUM_RANGES])]
  intro a ha
  cases ha

/-- C7 (amended): for every frequency `0 < freq` that does not exceed the
last band's max `(range 4).max = 99999999`, and every valid current index,
the band-selection scan (upward while above max, then downward while below
min) terminates with an index inside the 5-entry table; the lowest band's
min of 0 keeps the downward scan from stepping below index 0. Frequencies
above the last band's max instead drive the upward scan out of the
table. -/
theorem select_band_in_table (freq i : Nat) (hfreq : 0 < freq)
    (hle : freq ≤ (range (NUM_RANGES - 1)).max) (hi : i < NUM_RANGES) :
    ∃ j, select_band freq i = some j ∧ j < NUM_RANGES := by
  obtain ⟨k, hk⟩ := upScan_total freq hle i hi
  obtain ⟨hk5, _, _⟩ := upScan_some freq i k hk
  obtain ⟨j, hj, hjk⟩ := downScan_total freq k
  refine ⟨j, ?_, by omega⟩
  rw [select_band, hk]
  exact hj

/-- C7 (witness): the amended theorem applied at `freq = 12345`, start
index 0. -/
theorem select_band_in_table_witness :
    ∃ j, select_band 12345 0 = some j ∧ j < NUM_RANGES :=
  select_band_in_table 12345 0 (by decide) (by decide) (by decide)

/-! C8: two synthetic edges fed to the slow counter. -/

/-- C8: starting from an awaiting-first-edge slow-counter state holding
the sentinel period, after the first edge the period is still the
sentinel, and after a second edge `P` ticks later the period is exactly
`P`, with the reported exponent remaining 0; this holds whether or not the
second edge also triggers the emergency escalation (`P < 100`), since
escalation does not touch the slow counter's published fields. -/
theorem slow_two_edges (t0 P : Nat) (s : Sys)
    (hft : s.slow_cnt.first_time = true)
    (hsent : s.slow_cnt.period = MAX_PERIOD)
    (hlog : s.slow_cnt.log2num_events = 0)
    (hP : 0 < P) (hwrap : t0 + P < 2^32) :
    (slow_isr t0 s).slow_cnt.period = MAX_PERIOD ∧
    (slow_isr (t0 + P) (slow_isr t0 s)).slow_cnt.period = P ∧
    (slow_isr (t0 + P) (slow_isr t0 s)).slow_cnt.log2num_events = 0 := by
  have hsub : tick_sub (t0 + P) t0 = P := by
    have e1 : t0 + P + 2^32 - t0 = P + 2^32 := by omega
    rw [tick_sub, e1, Nat.add_mod_right, Nat.mod_eq_of_lt (by omega)]
  refine ⟨?_, ?_, ?_⟩ <;>
    by_cases h100 : P < 100 <;>
      simp [slow_isr, hft, hsent, hlog, hsub, h100]

/-- C8 (witness): the two-edge theorem applied at the startup state with
edges at ticks 1000 and 1500 (`P = 500`). -/
theorem slow_two_edges_witness :
    (slow_isr 1000 init_state).slow_cnt.period = MAX_PERIOD ∧
    (slow_isr 1500 (slow_isr 1000 init_state)).slow_cnt.period = 500 ∧
    (slow_isr 1500 (slow_isr 1000 init_state)).slow_cnt.log2num_events = 0 :=
  slow_two_edges 1000 500 init_state (by decide) (by decide) (by decide)
    (by decide) (by decide)

/-! C9: idempotence of the band-selection scan. -/

/-- C9: the band-selection scan is idempotent: if a run of the scan yields
index `j`, then running the scan again with the same frequency starting
from `j` yields `j` again. (Any successful run ends at a band that
brackets the frequency, and a bracketing band is a fixed point of both
phases.) -/
theorem select_band_idem (freq i j : Nat) (h : select_band freq i = some j) :
    select_band freq j = some j := by
  rw [select_band] at h
  cases hk : upScan freq i with
  | none => rw [hk] at h; cases h
  | some k =>
    rw [hk] at h
    have hj : downScan freq k = some j := h
    obtain ⟨hk5, hkmax, _⟩ := upScan_some freq i k hk
    obtain ⟨hjmin, hjk⟩ := downScan_some freq k j hj
    have hjmax : freq ≤ (range j).max := downScan_max freq k j hk5 hkmax hj
    have hj5 : j < NUM_RANGES := by omega
    have hup : upScan freq j = some j := by
      rw [upScan.eq_def, dif_pos hj5, if_neg (by omega)]
    rw [select_band, hup]
    show downScan freq j = some j
    rw [downScan.eq_def, if_neg (by omega)]

/-- C9 (witness): a first scan from index 0 at 12345 dHz yields band 1,
and the idempotence theorem applied there gives band 1 again from
start 1. -/
theorem select_band_idem_witness : select_band 12345 1 = some 1 := by
  have h : select_band 12345 0 = some 1 := by
    rw [select_band]
    rw [upScan.eq_def]; norm_num [NUM_RANGES, range]
    rw [upScan.eq_def]; norm_num [NUM_RANGES, range]
    rw [downScan.eq_def]; norm_num [range]
  exact select_band_idem 12345 0 1 h

/-! C10: the fast exponent invariant. -/

theorem slow_isr_exp (cs : Nat) (s : Sys) :
    (slow_isr cs s).fast_cnt.current_log2num_events =
      s.fast_cnt.current_log2num_events ∨
    (slow_isr cs s).fast_cnt.current_log2num_events = 1 := by
  simp only [slow_isr]
  split_ifs <;> simp

theorem slow_mode_exp (s : Sys) :
    (slow_mode_fn s).fast_cnt.current_log2num_events = 1 := by
  simp [slow_mode_fn, set_timer_fast_cnt]

theorem poll_exp (s : Sys) :
    (poll_wd s).1.fast_cnt.current_log2num_events =
      s.fast_cnt.current_log2num_events ∨
    (poll_wd s).1.fast_cnt.current_log2num_events = 1 := by
  simp only [poll_wd]
  split_ifs <;> simp [slow_mode_exp]

theorem fast_isr_exp_bounds (t : Nat) (s : Sys)
    (h1 : 1 ≤ s.fast_cnt.current_log2num_events)
    (h2 : s.fast_cnt.current_log2num_events ≤ 20) :
    1 ≤ (fast_isr t s).fast_cnt.current_log2num_events ∧
    (fast_isr t s).fast_cnt.current_log2num_events ≤ 20 := by
  simp only [fast_isr]
  split_ifs with hne hft hup hdown h5 h6 h7 h8 h9 h10 h11 h12 <;>
    simp_all [set_timer_fast_cnt]
  all_goals first
    | (obtain ⟨hu1, hu2, _, _, _, _⟩ := adapt_up_spec
        (tick_sub t s.fast_cnt.prev_ticks)
        s.fast_cnt.current_log2num_events hup.1 hup.2
       omega)
    | (obtain ⟨hd1, hd2⟩ := adapt_down_bounds
        (tick_sub t s.fast_cnt.prev_ticks)
        s.fast_cnt.current_log2num_events h7.2
       omega)

/-- C10: in every reachable state of the measurement engine — after
initialization and after any sequence of slow-mode edge interrupts (whose
escalation path writes exponent 1), fast-mode compare-match interrupts
(whose upward loop stays at or below 20 and whose downward loop stays at
or above 1), and polling-loop watchdog checks (whose forced switch writes
exponent 1) — the fast counter's pending exponent
`current_log2num_events` lies in `[1, 20]`.  Since every call of
`set_timer_cmp_reg` in those operations passes exactly the exponent value
it stores, `set_timer_cmp_reg` is only ever called with an exponent in
`[1, 20]`, and the shift amount `log2ne - 16` of its extended-counter
branch is at most 4. -/
theorem exponent_invariant (s : Sys) (h : Reachable s) :
    1 ≤ s.fast_cnt.current_log2num_events ∧
    s.fast_cnt.current_log2num_events ≤ 20 ∧
    s.fast_cnt.current_log2num_events - 16 ≤ 4 := by
  induction h with
  | init => decide
  | slow_edge s cs hs ih =>
    rcases slow_isr_exp cs s with h | h <;> omega
  | fast_compare s t hs ih =>
    have := fast_isr_exp_bounds t s ih.1 ih.2.1
    omega
  | poll s hs ih =>
    rcases poll_exp s with h | h <;> omega

/-- C10 (witness): the invariant applied to the startup state. -/
theorem exponent_invariant_witness :
    1 ≤ init_state.fast_cnt.current_log2num_events ∧
    init_state.fast_cnt.current_log2num_events ≤ 20 ∧
    init_state.fast_cnt.current_log2num_events - 16 ≤ 4 :=
  exponent_invariant init_state Reachable.init
